import Mathlib

set_option linter.unusedVariables false

/-!
Verification of the sponge-construction digest engine
(providers/implementations/digests/sha3_prov.c), the secure-memory
wrappers (crypto/mem_sec.c) and the ECX key-exchange context setup
(providers/implementations/exchange/ecx_exch.c), as a shallow embedding
in Lean 4.

Machine memory regions `(ptr, len)` are embedded as `List Nat` of byte
values; the Keccak permutation state `uint64_t A[5][5]` is embedded as
an abstract byte-list state `State`.  The Keccak permutation itself is
not part of the covered sources, so every function that invokes the
backend's one-block transform is parameterized by that transform
(`F : State → List Nat → State`, the combined "XOR the block into the
state and apply the permutation" step of the backend contract).
-/

namespace SHA3Prov

/-- The Keccak permutation working state (`uint64_t A[5][5]` in the C
context), embedded abstractly as a list of bytes. -/
abbrev State := List Nat

/-- Shallow embedding of `KECCAK1600_CTX`: permutation state `A`, the
staging buffer `buf` (modelled as the list of its `bufsz` valid bytes),
the buffered byte count `bufsz`, the rate `block_size`, the output
length `md_size`, the domain-separation/padding byte `pad`, and the
bound backend identity `meth` (a tag standing for the immutable
absorb/final function-pointer pair). -/
structure KECCAK1600_CTX where
  A : State
  buf : List Nat
  bufsz : Nat
  block_size : Nat
  md_size : Nat
  pad : Nat
  meth : Nat
deriving DecidableEq

/-- Modelled from the spec: the block-absorption loop at the heart of
`SHA3_absorb` (crypto/sha3/keccak1600.c, which is not among the covered
source files).  Per the spec's backend contract it "must consume every
full `block_size`-aligned prefix of `input` by XOR-ing it into `state`
and applying the permutation once per block"; `F` is that per-block
transform.  Returns the final state together with the unconsumed
trailing partial block. -/
def absorbFull (F : State → List Nat → State) (r : Nat) (A : State)
    (data : List Nat) : State × List Nat :=
  if h : 0 < r ∧ r ≤ data.length then
    absorbFull F r (F A (data.take r)) (data.drop r)
  else
    (A, data)
termination_by data.length
decreasing_by
  simp only [List.length_drop]
  exact Nat.sub_lt (Nat.lt_of_lt_of_le h.1 h.2) h.1

/-- Modelled from the spec: `SHA3_absorb(A, inp, len, r)` — absorbs all
full `r`-byte blocks of `inp` into the state and "must return the
length of the trailing partial block it did **not** consume". -/
def SHA3_absorb (F : State → List Nat → State) (A : State)
    (inp : List Nat) (r : Nat) : State × Nat :=
  ((absorbFull F r A inp).1, (absorbFull F r A inp).2.length)

/-- Embedding of `generic_sha3_absorb` (sha3_prov.c): delegates to
`SHA3_absorb` on the context's state with the context's block size;
returns the new state together with the leftover length. -/
def generic_sha3_absorb (F : State → List Nat → State)
    (ctx : KECCAK1600_CTX) (inp : List Nat) : State × Nat :=
  SHA3_absorb F ctx.A inp ctx.block_size

/-- Embedding of `s390x_sha3_absorb` (sha3_prov.c): computes
`rem = len % ctx->block_size`, feeds the `len - rem` aligned prefix to
the `kimd` instruction and returns `rem`.  `K` embeds the hardware
`s390x_kimd` primitive (state, function code, data). -/
def s390x_sha3_absorb (K : State → Nat → List Nat → State)
    (ctx : KECCAK1600_CTX) (inp : List Nat) : State × Nat :=
  let rem := inp.length % ctx.block_size
  (K ctx.A ctx.pad (inp.take (inp.length - rem)), rem)

/-- Embedding of the tail of `keccak_update` (sha3_prov.c lines 95-102,
reached once the staging buffer is empty): absorb the input through the
backend; if a nonzero remainder is reported, copy the trailing
remainder bytes into the staging buffer. -/
def keccak_update_tail (F : State → List Nat → State)
    (c : KECCAK1600_CTX) (inp1 : List Nat) : KECCAK1600_CTX :=
  let res := SHA3_absorb F c.A inp1 c.block_size
  if res.2 ≠ 0 then
    { c with A := res.1,
             buf := inp1.drop (inp1.length - res.2), bufsz := res.2 }
  else
    { c with A := res.1 }

/-- Embedding of `keccak_update` (sha3_prov.c): the streaming absorb.
A zero-length input returns immediately.  If the staging buffer is
nonempty and the input does not fill it, the input is merely appended;
otherwise the buffer is topped up to a full block and that block is
absorbed, after which the shifted input is handled by
`keccak_update_tail`.  The backend dispatch `ctx->meth.absorb` is
embedded as the generic absorb parameterized by the one-block
transform `F`. -/
def keccak_update (F : State → List Nat → State) (ctx : KECCAK1600_CTX)
    (inp : List Nat) : KECCAK1600_CTX :=
  if inp.length = 0 then ctx
  else if ctx.bufsz ≠ 0 ∧ inp.length < ctx.block_size - ctx.bufsz then
    { ctx with buf := ctx.buf ++ inp, bufsz := ctx.bufsz + inp.length }
  else if ctx.bufsz ≠ 0 then
    keccak_update_tail F
      { ctx with
        A := (SHA3_absorb F ctx.A
                (ctx.buf ++ inp.take (ctx.block_size - ctx.bufsz))
                ctx.block_size).1,
        buf := [], bufsz := 0 }
      (inp.drop (ctx.block_size - ctx.bufsz))
  else
    keccak_update_tail F ctx inp

/-- Modelled from the spec: `ossl_sha3_reset` (crypto/sha3/sha3.c, not
among the covered source files) — returns the context to the Created
state: "buffer empty, state zeroed", configuration retained. -/
def ossl_sha3_reset (c : KECCAK1600_CTX) : KECCAK1600_CTX :=
  { c with A := List.replicate c.A.length 0, buf := [], bufsz := 0 }

/-- Embedding of `keccak_init` (sha3_prov.c): fails if the provider is
not running, otherwise resets the context. -/
def keccak_init (running : Bool) (c : KECCAK1600_CTX) :
    Bool × KECCAK1600_CTX :=
  if running = false then (false, c) else (true, ossl_sha3_reset c)

/-- Shallow embedding of an `OSSL_PARAM` entry: a key and the value it
carries, where `some n` stands for a value convertible to a `size_t`
and `none` for a malformed (unconvertible) value. -/
structure OSSL_PARAM where
  key : String
  data : Option Nat
deriving DecidableEq

/-- The recognized output-length key `OSSL_DIGEST_PARAM_XOFLEN`. -/
def OSSL_DIGEST_PARAM_XOFLEN : String := "xoflen"

/-- Modelled from the spec: `OSSL_PARAM_locate_const` (crypto/params.c,
not among the covered source files) — find the first entry with the
given key. -/
def OSSL_PARAM_locate_const (ps : List OSSL_PARAM) (k : String) :
    Option OSSL_PARAM :=
  ps.find? (fun p => p.key == k)

/-- Modelled from the spec: `OSSL_PARAM_get_size_t` (crypto/params.c,
not among the covered source files) — "malformed values fail with a
parameter error"; on success yields the converted size. -/
def OSSL_PARAM_get_size_t (p : OSSL_PARAM) : Option Nat :=
  p.data

/-- Embedding of `shake_set_ctx_params` (sha3_prov.c): a NULL context
fails; a NULL parameter list succeeds; otherwise the output-length key
is looked up, a malformed value fails leaving the context unchanged,
and a valid value replaces `md_size`. -/
def shake_set_ctx_params (ctx : Option KECCAK1600_CTX)
    (params : Option (List OSSL_PARAM)) :
    Bool × Option KECCAK1600_CTX :=
  match ctx with
  | none => (false, none)
  | some c =>
    match params with
    | none => (true, some c)
    | some ps =>
      match OSSL_PARAM_locate_const ps OSSL_DIGEST_PARAM_XOFLEN with
      | none => (true, some c)
      | some p =>
        match OSSL_PARAM_get_size_t p with
        | none => (false, some c)
        | some n => (true, some { c with md_size := n })

/-- Embedding of `keccak_init_params` (sha3_prov.c):
`keccak_init(vctx, NULL) && shake_set_ctx_params(vctx, params)`. -/
def keccak_init_params (running : Bool) (c : KECCAK1600_CTX)
    (params : Option (List OSSL_PARAM)) : Bool × Option KECCAK1600_CTX :=
  let i := keccak_init running c
  if i.1 then shake_set_ctx_params (some i.2) params else (false, some i.2)

/-- Embedding of `keccak_final` (sha3_prov.c).  `finalFn` embeds the
bound backend `ctx->meth.final`, returning its success flag, the bytes
it writes to `out`, and the possibly mutated context.  The result is
`(return value, bytes written to out, value stored in *outl, final
context)`; `*outl` is `none` when the function returns without storing
to it (the not-running path). -/
def keccak_final (running : Bool)
    (finalFn : KECCAK1600_CTX → Bool × List Nat × KECCAK1600_CTX)
    (ctx : KECCAK1600_CTX) (outsz : Nat) :
    Bool × List Nat × Option Nat × KECCAK1600_CTX :=
  if running = false then (false, [], none, ctx)
  else
    let step := if 0 < outsz then finalFn ctx else (true, [], ctx)
    (step.1, step.2.1, some step.2.2.md_size, step.2.2)

/-- Embedding of `keccak_dupctx` (sha3_prov.c): allocation is attempted
only when the provider is running (`allocOk` embeds whether `zalloc`
succeeds); when a block is obtained the whole source struct is copied
into it by value (`*ret = *in`). -/
def keccak_dupctx (running : Bool) (allocOk : Bool)
    (inp : KECCAK1600_CTX) : Option KECCAK1600_CTX :=
  let ret : Option KECCAK1600_CTX :=
    if running = true then
      (if allocOk = true then some ⟨[], [], 0, 0, 0, 0, 0⟩ else none)
    else none
  ret.map (fun _ => inp)

end SHA3Prov

namespace MemSec

/-- A flat heap: an allocation counter, the live blocks
(address ↦ byte contents) and the residual contents of freed blocks
(what a later inspection of the freed region would observe). -/
structure Heap where
  next : Nat
  live : List (Nat × List Nat)
  freed : List (Nat × List Nat)
deriving DecidableEq

/-- The contents of the live block at address `p`, if any. -/
def Heap.liveAt (h : Heap) (p : Nat) : Option (List Nat) :=
  (h.live.find? (fun e => e.1 == p)).map (fun e => e.2)

/-- The residual contents observable at the freed address `p`, if any
(most recently freed first). -/
def Heap.freedAt (h : Heap) (p : Nat) : Option (List Nat) :=
  (h.freed.find? (fun e => e.1 == p)).map (fun e => e.2)

/-- Modelled from the spec: `OPENSSL_cleanse` (crypto/mem_clr.c, not
among the covered source files) — overwrite the block at `p` with
zeros. -/
def cleanse (h : Heap) (p : Nat) : Heap :=
  { h with
    live := h.live.map
      (fun e => if e.1 == p then (e.1, List.replicate e.2.length 0) else e) }

/-- Release the block at `p`: it stops being live, and its bytes as
they stand at release time become the residue observable in the freed
region. -/
def release (h : Heap) (p : Nat) : Heap :=
  { h with
    live := h.live.filter (fun e => ¬ e.1 == p),
    freed := h.live.filter (fun e => e.1 == p) ++ h.freed }

/-- Modelled from the spec: `OPENSSL_clear_free` (crypto/mem.c, not
among the covered source files) — overwrite the region with zeros, then
release it. -/
def OPENSSL_clear_free (h : Heap) (p : Nat) (num : Nat) : Heap :=
  release (cleanse h p) p

/-- Modelled from the spec: `zhard_alloc` (the external hardened
allocator, consumed through an "allocate-zeroed(n)" contract) — returns
a fresh zero-filled block. -/
def zhard_alloc (h : Heap) (num : Nat) : Heap × Nat :=
  ({ h with next := h.next + 1,
            live := (h.next, List.replicate num 0) :: h.live },
   h.next)

/-- Modelled from the spec: `zhard_free` (the external hardened
allocator, consumed through a "free-and-wipe(ptr)" contract) — wipes
the block and releases it, leaving no recoverable contents in the freed
region. -/
def zhard_free (h : Heap) (p : Nat) : Heap :=
  release (cleanse h p) p

/-- Embedding of `CRYPTO_secure_malloc` (mem_sec.c): delegates to
`zhard_alloc(num)`; `file` and `line` are ignored. -/
def CRYPTO_secure_malloc (h : Heap) (num : Nat) (file : String)
    (line : Nat) : Heap × Nat :=
  zhard_alloc h num

/-- Embedding of `CRYPTO_secure_zalloc` (mem_sec.c): delegates to
`zhard_alloc(num)`; `file` and `line` are ignored. -/
def CRYPTO_secure_zalloc (h : Heap) (num : Nat) (file : String)
    (line : Nat) : Heap × Nat :=
  zhard_alloc h num

/-- Embedding of `CRYPTO_secure_free` (mem_sec.c): delegates to
`zhard_free(ptr)`; `file` and `line` are ignored. -/
def CRYPTO_secure_free (h : Heap) (ptr : Nat) (file : String)
    (line : Nat) : Heap :=
  zhard_free h ptr

/-- Embedding of `CRYPTO_secure_clear_free` (mem_sec.c): delegates to
`zhard_free(ptr)`; `num`, `file` and `line` are ignored. -/
def CRYPTO_secure_clear_free (h : Heap) (ptr : Nat) (num : Nat)
    (file : String) (line : Nat) : Heap :=
  zhard_free h ptr

end MemSec

namespace SHA3Prov

/-- Embedding of `keccak_freectx` (sha3_prov.c):
`OPENSSL_clear_free(ctx, sizeof(*ctx))` — the context's block on the
heap is wiped and released.  `p` is the context's address and `ctxSize`
embeds `sizeof(*ctx)` (the whole block is covered). -/
def keccak_freectx (h : MemSec.Heap) (p : Nat) (ctxSize : Nat) :
    MemSec.Heap :=
  MemSec.OPENSSL_clear_free h p ctxSize

end SHA3Prov

namespace ECXExch

/-- Shallow embedding of `ECX_KEY` as far as ecx_exch.c inspects it: an
identity and the key length.  Reference counting is embedded by the
`upRefOk` predicate passed to the operations (`ossl_ecx_key_up_ref` is
not among the covered source files). -/
structure ECX_KEY where
  id : Nat
  keylen : Nat
deriving DecidableEq

/-- Shallow embedding of `PROV_ECX_CTX`: the configured key length and
the stored key and peer key (NULL embedded as `none`). -/
structure PROV_ECX_CTX where
  keylen : Nat
  key : Option ECX_KEY
  peerkey : Option ECX_KEY
deriving DecidableEq

/-- Embedding of `ecx_init` (ecx_exch.c): fails when the provider is
not running, the context or key is NULL, the key length differs from
the context's, or the reference count cannot be taken; otherwise frees
the old key and stores the new one. -/
def ecx_init (running : Bool) (upRefOk : ECX_KEY → Bool)
    (ctx : Option PROV_ECX_CTX) (key : Option ECX_KEY) :
    Bool × Option PROV_ECX_CTX :=
  if running = false then (false, ctx)
  else
    match ctx, key with
    | some c, some k =>
      if k.keylen ≠ c.keylen then (false, some c)
      else if upRefOk k = false then (false, some c)
      else (true, some { c with key := some k })
    | _, _ => (false, ctx)

/-- Embedding of `ecx_set_peer` (ecx_exch.c): identical checks to
`ecx_init`, storing into the peer-key slot instead. -/
def ecx_set_peer (running : Bool) (upRefOk : ECX_KEY → Bool)
    (ctx : Option PROV_ECX_CTX) (key : Option ECX_KEY) :
    Bool × Option PROV_ECX_CTX :=
  if running = false then (false, ctx)
  else
    match ctx, key with
    | some c, some k =>
      if k.keylen ≠ c.keylen then (false, some c)
      else if upRefOk k = false then (false, some c)
      else (true, some { c with peerkey := some k })
    | _, _ => (false, ctx)

end ECXExch

namespace Samples

open SHA3Prov MemSec ECXExch

/-- A concrete one-block transform used to exercise the engine. -/
def F1 : State → List Nat → State := fun A blk => blk ++ A

/-- A concrete stand-in for the s390x `kimd` primitive. -/
def K1 : State → Nat → List Nat → State := fun A _ blk => blk ++ A

/-- A concrete freshly created context with block size 4 (claim C1). -/
def ctx1 : KECCAK1600_CTX := ⟨[0, 0], [], 0, 4, 32, 6, 0⟩

/-- A concrete context with a partially filled buffer (claim C2). -/
def ctx2 : KECCAK1600_CTX := ⟨[0, 0], [9], 1, 4, 32, 6, 0⟩

/-- A concrete context for the duplication claim (claim C3). -/
def ctx3 : KECCAK1600_CTX := ⟨[1, 2], [3], 1, 4, 32, 6, 0⟩

/-- A concrete SHA3-256-shaped context: 32-byte digest (claim C4). -/
def ctx4 : KECCAK1600_CTX := ⟨[0, 0], [], 0, 136, 32, 6, 0⟩

/-- A concrete backend final writing `md_size` zeros (claim C4). -/
def final4 : KECCAK1600_CTX → Bool × List Nat × KECCAK1600_CTX :=
  fun c => (true, List.replicate c.md_size 0, c)

/-- A concrete context for the absorb-contract claim (claim C5). -/
def ctx5 : KECCAK1600_CTX := ⟨[0, 0], [], 0, 4, 32, 6, 0⟩

/-- A concrete SHAKE128-shaped context (claim C6). -/
def ctx6 : KECCAK1600_CTX := ⟨[0, 0, 0, 0], [], 0, 4, 16, 31, 0⟩

/-- A valid output-length parameter entry carrying 42 (claim C6). -/
def pXof42 : OSSL_PARAM := ⟨"xoflen", some 42⟩

/-- A concrete context for the parameter-handling claim (claim C7). -/
def ctx7 : KECCAK1600_CTX := ⟨[0, 0, 0, 0], [], 0, 4, 16, 31, 0⟩

/-- A parameter entry with an unrecognized key (claim C7). -/
def pOther : OSSL_PARAM := ⟨"size", some 7⟩

/-- A malformed output-length parameter entry (claim C7). -/
def pBad : OSSL_PARAM := ⟨"xoflen", none⟩

/-- A concrete heap with one live three-byte block at address 0
(claim C8). -/
def heap8 : Heap := ⟨1, [(0, [5, 6, 7])], []⟩

/-- A concrete X25519-shaped exchange context (claim C9). -/
def ectx9 : PROV_ECX_CTX := ⟨32, none, none⟩

/-- A concrete key of the wrong length for `ectx9` (claim C9). -/
def key9 : ECX_KEY := ⟨1, 56⟩

/-- A concrete key of the matching length for `ectx9` (claim C9). -/
def key9m : ECX_KEY := ⟨2, 32⟩

end Samples

namespace SHA3Prov

/-- The absorption loop stops as soon as no full block remains. -/
theorem absorbFull_stop (F : State → List Nat → State) (r : Nat)
    (A : State) (data : List Nat) (h : ¬(0 < r ∧ r ≤ data.length)) :
    absorbFull F r A data = (A, data) := by
  rw [absorbFull, dif_neg h]

/-- One iteration of the absorption loop. -/
theorem absorbFull_step (F : State → List Nat → State) (r : Nat)
    (A : State) (data : List Nat) (h1 : 0 < r) (h2 : r ≤ data.length) :
    absorbFull F r A data =
      absorbFull F r (F A (data.take r)) (data.drop r) := by
  rw [absorbFull, dif_pos (And.intro h1 h2)]

/-- The leftover of the absorption loop has length `len % r`. -/
theorem absorbFull_snd_length (F : State → List Nat → State) (r : Nat)
    (hr : 0 < r) (A : State) (data : List Nat) :
    (absorbFull F r A data).2.length = data.length % r := by
  induction A, data using absorbFull.induct F r with
  | case1 A data h ih =>
    rw [absorbFull_step F r A data h.1 h.2, ih, List.length_drop]
    exact (Nat.mod_eq_sub_mod h.2).symm
  | case2 A data h =>
    have hlt : data.length < r := by omega
    rw [absorbFull_stop F r A data h]
    exact (Nat.mod_eq_of_lt hlt).symm

/-- The leftover of the absorption loop is the unconsumed suffix of the
input past its longest `r`-aligned prefix. -/
theorem absorbFull_snd_suffix (F : State → List Nat → State) (r : Nat)
    (hr : 0 < r) (A : State) (data : List Nat) :
    (absorbFull F r A data).2 =
      data.drop (data.length - data.length % r) := by
  induction A, data using absorbFull.induct F r with
  | case1 A data h ih =>
    rw [absorbFull_step F r A data h.1 h.2, ih, List.length_drop,
      List.drop_drop]
    have h1 : data.length % r = (data.length - r) % r :=
      Nat.mod_eq_sub_mod h.2
    have h2 : (data.length - r) % r ≤ data.length - r := Nat.mod_le _ _
    rw [h1]
    congr 1
    omega
  | case2 A data h =>
    have hlt : data.length < r := by omega
    rw [absorbFull_stop F r A data h, Nat.mod_eq_of_lt hlt]
    simp

/-- Extending the input of the absorption loop on the right: the loop
can be restarted from its final state and leftover. -/
theorem absorbFull_append (F : State → List Nat → State) (r : Nat)
    (A : State) (data b : List Nat) :
    absorbFull F r A (data ++ b) =
      absorbFull F r (absorbFull F r A data).1
        ((absorbFull F r A data).2 ++ b) := by
  induction A, data using absorbFull.induct F r with
  | case1 A data h ih =>
    rw [absorbFull_step F r A data h.1 h.2,
      absorbFull_step F r A (data ++ b) h.1
        (by rw [List.length_append]; omega),
      List.take_append_of_le_length h.2,
      List.drop_append_of_le_length h.2]
    exact ih
  | case2 A data h =>
    rw [absorbFull_stop F r A data h]

/-- Once the staging buffer is empty, the tail of `keccak_update`
computes exactly the block-absorption loop: new state, leftover bytes
in the buffer, leftover length in `bufsz`. -/
theorem keccak_update_tail_char (F : State → List Nat → State)
    (c : KECCAK1600_CTX) (inp1 : List Nat) (hr : 0 < c.block_size)
    (hbuf : c.buf = []) (hsz : c.bufsz = 0) :
    keccak_update_tail F c inp1 =
      { c with A := (absorbFull F c.block_size c.A inp1).1,
               buf := (absorbFull F c.block_size c.A inp1).2,
               bufsz := (absorbFull F c.block_size c.A inp1).2.length } := by
  obtain ⟨A, buf, bufsz, bs, md, pd, mth⟩ := c
  simp only at hr hbuf hsz
  subst hbuf hsz
  unfold keccak_update_tail SHA3_absorb
  by_cases h0 : (absorbFull F bs A inp1).2.length = 0
  · simp [h0, List.length_eq_zero.mp h0]
  · simp only [ne_eq, h0, not_false_eq_true, if_true, ite_true,
      KECCAK1600_CTX.mk.injEq, and_true, true_and]
    rw [absorbFull_snd_suffix F bs hr A inp1, List.length_drop]
    congr 1
    have := Nat.mod_le inp1.length bs
    omega

/-- Characterization of `keccak_update` on a well-formed context: the
result is what the block-absorption loop yields on the concatenation of
the already-buffered bytes and the new input. -/
theorem keccak_update_char (F : State → List Nat → State)
    (ctx : KECCAK1600_CTX) (inp : List Nat)
    (h1 : ctx.buf.length = ctx.bufsz) (h2 : ctx.bufsz < ctx.block_size) :
    keccak_update F ctx inp =
      { ctx with
        A := (absorbFull F ctx.block_size ctx.A (ctx.buf ++ inp)).1,
        buf := (absorbFull F ctx.block_size ctx.A (ctx.buf ++ inp)).2,
        bufsz := (absorbFull F ctx.block_size ctx.A
                    (ctx.buf ++ inp)).2.length } := by
  obtain ⟨A, buf, bufsz, bs, md, pd, mth⟩ := ctx
  simp only at h1 h2 ⊢
  have hr : 0 < bs := by omega
  by_cases hz : inp.length = 0
  · rw [List.length_eq_zero.mp hz]
    rw [absorbFull_stop F bs A (buf ++ []) (by simp [List.append_nil]; omega)]
    simp [keccak_update, List.append_nil, h1]
  · by_cases hb : bufsz = 0
    · subst hb
      have hbuf : buf = [] := List.length_eq_zero.mp h1
      subst hbuf
      rw [show keccak_update F ⟨A, [], 0, bs, md, pd, mth⟩ inp
            = keccak_update_tail F ⟨A, [], 0, bs, md, pd, mth⟩ inp by
          simp [keccak_update, hz]]
      rw [keccak_update_tail_char F _ _ hr rfl rfl]
      simp
    · by_cases hsmall : inp.length < bs - bufsz
      · rw [show keccak_update F ⟨A, buf, bufsz, bs, md, pd, mth⟩ inp
              = ⟨A, buf ++ inp, bufsz + inp.length, bs, md, pd, mth⟩ by
            simp [keccak_update, hz, hb, hsmall]]
        rw [absorbFull_stop F bs A (buf ++ inp)
            (by rw [List.length_append]; omega)]
        simp [List.length_append, h1]
      · -- the buffer is topped up to a full block and absorbed
        rw [show keccak_update F ⟨A, buf, bufsz, bs, md, pd, mth⟩ inp
              = keccak_update_tail F
                  ⟨(SHA3_absorb F A (buf ++ inp.take (bs - bufsz)) bs).1,
                   [], 0, bs, md, pd, mth⟩
                  (inp.drop (bs - bufsz)) by
            simp [keccak_update, hz, hb, hsmall]]
        rw [keccak_update_tail_char F _ _ hr rfl rfl]
        have hfl : (buf ++ inp.take (bs - bufsz)).length = bs := by
          rw [List.length_append, List.length_take]
          omega
        have hsingle :
            absorbFull F bs A (buf ++ inp.take (bs - bufsz))
              = (F A (buf ++ inp.take (bs - bufsz)), []) := by
          rw [absorbFull_step F bs A _ hr (le_of_eq hfl.symm),
            List.take_of_length_le (le_of_eq hfl),
            List.drop_of_length_le (le_of_eq hfl),
            absorbFull_stop F bs _ [] (by simp; omega)]
        have key :
            absorbFull F bs A (buf ++ inp)
              = absorbFull F bs (F A (buf ++ inp.take (bs - bufsz)))
                  (inp.drop (bs - bufsz)) := by
          conv_lhs =>
            rw [show buf ++ inp
                  = (buf ++ inp.take (bs - bufsz)) ++ inp.drop (bs - bufsz) by
                rw [List.append_assoc, List.take_append_drop]]
          rw [absorbFull_step F bs A _ hr
              (by rw [List.length_append, hfl]; omega),
            List.take_append_of_le_length (le_of_eq hfl.symm),
            List.drop_append_of_le_length (le_of_eq hfl.symm),
            List.take_of_length_le (le_of_eq hfl),
            List.drop_of_length_le (le_of_eq hfl),
            List.nil_append]
        simp [SHA3_absorb, hsingle, key]

/-- `keccak_update` preserves well-formedness of the context: the
buffer holds exactly `bufsz` bytes and `bufsz` stays below the block
size. -/
theorem keccak_update_wf (F : State → List Nat → State)
    (ctx : KECCAK1600_CTX) (inp : List Nat)
    (h1 : ctx.buf.length = ctx.bufsz) (h2 : ctx.bufsz < ctx.block_size) :
    (keccak_update F ctx inp).buf.length = (keccak_update F ctx inp).bufsz ∧
    (keccak_update F ctx inp).bufsz < (keccak_update F ctx inp).block_size := by
  have hr : 0 < ctx.block_size := by omega
  rw [keccak_update_char F ctx inp h1 h2]
  refine ⟨rfl, ?_⟩
  show (absorbFull F ctx.block_size ctx.A (ctx.buf ++ inp)).2.length
        < ctx.block_size
  rw [absorbFull_snd_length F ctx.block_size hr]
  exact Nat.mod_lt _ hr

/-- Two consecutive `keccak_update` calls absorb exactly what one call
on the concatenated input absorbs. -/
theorem keccak_update_append (F : State → List Nat → State)
    (ctx : KECCAK1600_CTX) (a b : List Nat)
    (h1 : ctx.buf.length = ctx.bufsz) (h2 : ctx.bufsz < ctx.block_size) :
    keccak_update F (keccak_update F ctx a) b
      = keccak_update F ctx (a ++ b) := by
  have hr : 0 < ctx.block_size := by omega
  have hwf := keccak_update_wf F ctx a h1 h2
  rw [keccak_update_char F ctx a h1 h2] at hwf ⊢
  rw [keccak_update_char F _ b hwf.1 hwf.2,
    keccak_update_char F ctx (a ++ b) h1 h2]
  show ({ ctx with
      A := (absorbFull F ctx.block_size
              (absorbFull F ctx.block_size ctx.A (ctx.buf ++ a)).1
              ((absorbFull F ctx.block_size ctx.A (ctx.buf ++ a)).2 ++ b)).1,
      buf := (absorbFull F ctx.block_size
              (absorbFull F ctx.block_size ctx.A (ctx.buf ++ a)).1
              ((absorbFull F ctx.block_size ctx.A (ctx.buf ++ a)).2 ++ b)).2,
      bufsz := (absorbFull F ctx.block_size
              (absorbFull F ctx.block_size ctx.A (ctx.buf ++ a)).1
              ((absorbFull F ctx.block_size ctx.A (ctx.buf ++ a)).2 ++ b)).2.length }
    : KECCAK1600_CTX) = _
  rw [← absorbFull_append F ctx.block_size ctx.A (ctx.buf ++ a) b,
    List.append_assoc]

/-- C1: for every algorithm family (any block size, any backend block
transform `F`), every input, and every way of splitting that input into
a sequence of chunks, applying `keccak_update` to the chunks in order
leaves the context in exactly the same state as applying
`keccak_update` once to the whole input, so the final digest is
identical. -/
theorem keccak_update_chunking (F : State → List Nat → State)
    (ctx : KECCAK1600_CTX) (chunks : List (List Nat))
    (h1 : ctx.buf.length = ctx.bufsz) (h2 : ctx.bufsz < ctx.block_size) :
    List.foldl (keccak_update F) ctx chunks
      = keccak_update F ctx chunks.flatten := by
  induction chunks generalizing ctx with
  | nil =>
    show ctx = keccak_update F ctx []
    simp [keccak_update]
  | cons c cs ih =>
    rw [List.foldl_cons, List.flatten_cons]
    have hwf := keccak_update_wf F ctx c h1 h2
    rw [ih (keccak_update F ctx c) hwf.1 hwf.2,
      keccak_update_append F ctx c cs.flatten h1 h2]

/-- Witness for C1: a fresh block-size-4 context, input split as
`[1] / [2,3,4,5] / [6]` versus all at once. -/
theorem keccak_update_chunking_witness :
    Samples.ctx1.buf.length = Samples.ctx1.bufsz ∧
    Samples.ctx1.bufsz < Samples.ctx1.block_size ∧
    List.foldl (keccak_update Samples.F1) Samples.ctx1
        [[1], [2, 3, 4, 5], [6]]
      = keccak_update Samples.F1 Samples.ctx1 [1, 2, 3, 4, 5, 6] :=
  ⟨rfl, by decide,
    keccak_update_chunking Samples.F1 Samples.ctx1
      [[1], [2, 3, 4, 5], [6]] rfl (by decide)⟩

/-- C2: for every context whose buffer count satisfies
`bufsz < block_size` before the call (with the buffer holding exactly
`bufsz` bytes), after any `keccak_update` call the buffer count again
satisfies `bufsz < block_size` (the block size being unchanged): a full
block is always absorbed immediately, never left sitting in the staging
buffer.  `0 ≤ bufsz` holds by the type. -/
theorem keccak_update_bufsz_invariant (F : State → List Nat → State)
    (ctx : KECCAK1600_CTX) (inp : List Nat)
    (h1 : ctx.buf.length = ctx.bufsz) (h2 : ctx.bufsz < ctx.block_size) :
    (keccak_update F ctx inp).block_size = ctx.block_size ∧
    (keccak_update F ctx inp).bufsz
      < (keccak_update F ctx inp).block_size := by
  refine ⟨?_, (keccak_update_wf F ctx inp h1 h2).2⟩
  rw [keccak_update_char F ctx inp h1 h2]

/-- Witness for C2: a context with one buffered byte receiving five
more bytes over a block size of four. -/
theorem keccak_update_bufsz_invariant_witness :
    Samples.ctx2.buf.length = Samples.ctx2.bufsz ∧
    Samples.ctx2.bufsz < Samples.ctx2.block_size ∧
    ((keccak_update Samples.F1 Samples.ctx2 [1, 2, 3, 4, 5]).block_size
        = Samples.ctx2.block_size ∧
      (keccak_update Samples.F1 Samples.ctx2 [1, 2, 3, 4, 5]).bufsz
        < (keccak_update Samples.F1 Samples.ctx2 [1, 2, 3, 4, 5]).block_size) :=
  ⟨rfl, by decide,
    keccak_update_bufsz_invariant Samples.F1 Samples.ctx2
      [1, 2, 3, 4, 5] rfl (by decide)⟩

/-- Counterexample for C3: `keccak_dupctx` does not fail only on
allocation failure — when the provider is not running it fails even
though allocation would succeed (`allocOk = true`). -/
theorem keccak_dupctx_fails_without_alloc_failure :
    ¬ (∀ (running allocOk : Bool) (c : KECCAK1600_CTX),
        keccak_dupctx running allocOk c = none → allocOk = false) := by
  intro h
  have hfail := h false true Samples.ctx3 (by simp [keccak_dupctx])
  exact Bool.noConfusion hfail

/-- C3 (amended): `keccak_dupctx` either returns a byte-exact copy of
the source context — every field, including the backend binding, equal,
and sharing no mutable storage in this value model — or fails, and it
fails exactly when the provider is not running or the allocation
fails. -/
theorem keccak_dupctx_copy (running allocOk : Bool)
    (c : KECCAK1600_CTX) :
    (∀ d, keccak_dupctx running allocOk c = some d →
        d.A = c.A ∧ d.buf = c.buf ∧ d.bufsz = c.bufsz ∧
        d.block_size = c.block_size ∧ d.md_size = c.md_size ∧
        d.pad = c.pad ∧ d.meth = c.meth) ∧
    (keccak_dupctx running allocOk c = none
        ↔ (running = false ∨ allocOk = false)) := by
  cases running <;> cases allocOk <;> simp [keccak_dupctx]

/-- Witness for C3 (amended): a running provider with a successful
allocation duplicates the sample context field by field; a non-running
provider yields the failure result. -/
theorem keccak_dupctx_copy_witness :
    (Samples.ctx3.A = Samples.ctx3.A ∧
     Samples.ctx3.buf = Samples.ctx3.buf ∧
     Samples.ctx3.bufsz = Samples.ctx3.bufsz ∧
     Samples.ctx3.block_size = Samples.ctx3.block_size ∧
     Samples.ctx3.md_size = Samples.ctx3.md_size ∧
     Samples.ctx3.pad = Samples.ctx3.pad ∧
     Samples.ctx3.meth = Samples.ctx3.meth) ∧
    (keccak_dupctx false true Samples.ctx3 = none
        ↔ (false = false ∨ true = false)) :=
  ⟨(keccak_dupctx_copy true true Samples.ctx3).1 Samples.ctx3
      (by simp [keccak_dupctx]),
   (keccak_dupctx_copy false true Samples.ctx3).2⟩

/-- Counterexample for C4: on a SHA3-256-shaped context with output
size 0, `keccak_final` stores 32 in `*outl` although zero bytes were
produced, so the reported count is not the number of bytes actually
produced. -/
theorem keccak_final_outl_mismatch :
    (keccak_final true Samples.final4 Samples.ctx4 0).2.2.1
      ≠ some ((keccak_final true Samples.final4 Samples.ctx4 0).2.1).length := by
  simp [keccak_final, Samples.ctx4, Samples.final4]

/-- C4 (amended): with the provider running, `keccak_final` with output
size 0 is legal: it succeeds, performs no padding or squeeze — the
backend final is not invoked, so the result is independent of it and
the context is returned unchanged — writes no bytes to the output
buffer, and reports the context's configured digest size through
`outl`. -/
theorem keccak_final_zero_outsz
    (f g : KECCAK1600_CTX → Bool × List Nat × KECCAK1600_CTX)
    (c : KECCAK1600_CTX) :
    keccak_final true f c 0 = (true, [], some c.md_size, c) ∧
    keccak_final true f c 0 = keccak_final true g c 0 := by
  constructor <;> simp [keccak_final]

/-- The state computed by the absorption loop depends only on the
longest `r`-aligned prefix of the input. -/
theorem absorbFull_fst_aligned (F : State → List Nat → State) (r : Nat)
    (hr : 0 < r) (A : State) (l : List Nat) :
    (absorbFull F r A l).1
      = (absorbFull F r A (l.take (l.length - l.length % r))).1 := by
  have hmle : l.length % r ≤ l.length := Nat.mod_le _ _
  have hmlt : l.length % r < r := Nat.mod_lt _ hr
  have hn : (l.take (l.length - l.length % r)).length
      = l.length - l.length % r := by
    rw [List.length_take]
    exact inf_eq_left.mpr (by omega)
  have hzero : (l.length - l.length % r) % r = 0 := by
    have hdm := Nat.div_add_mod l.length r
    have h2 : l.length - l.length % r = r * (l.length / r) := by omega
    rw [h2, Nat.mul_mod_right]
  conv_lhs => rw [← List.take_append_drop (l.length - l.length % r) l]
  rw [absorbFull_append]
  have hlen0 : (absorbFull F r A
      (l.take (l.length - l.length % r))).2.length = 0 := by
    rw [absorbFull_snd_length F r hr, hn, hzero]
  rw [List.length_eq_zero.mp hlen0, List.nil_append,
    absorbFull_stop F r _ (l.drop (l.length - l.length % r))
      (by rw [List.length_drop]; omega)]

/-- C5: for every context with positive block size `b` and every input,
the backend absorb — generic and s390x alike — returns
`leftover = len % b` with `0 ≤ leftover < b`, and the state it produces
is exactly the state obtained from the longest `b`-aligned prefix of
the input. -/
theorem absorb_backends_consume_aligned_part
    (F : State → List Nat → State) (K : State → Nat → List Nat → State)
    (ctx : KECCAK1600_CTX) (inp : List Nat)
    (hr : 0 < ctx.block_size) :
    ((generic_sha3_absorb F ctx inp).2 = inp.length % ctx.block_size ∧
     (generic_sha3_absorb F ctx inp).2 < ctx.block_size ∧
     (generic_sha3_absorb F ctx inp).1
       = (generic_sha3_absorb F ctx
            (inp.take (inp.length - inp.length % ctx.block_size))).1) ∧
    ((s390x_sha3_absorb K ctx inp).2 = inp.length % ctx.block_size ∧
     (s390x_sha3_absorb K ctx inp).2 < ctx.block_size ∧
     (s390x_sha3_absorb K ctx inp).1
       = K ctx.A ctx.pad
           (inp.take (inp.length - inp.length % ctx.block_size))) := by
  refine ⟨⟨?_, ?_, ?_⟩, ⟨rfl, Nat.mod_lt _ hr, rfl⟩⟩
  · exact absorbFull_snd_length F ctx.block_size hr ctx.A inp
  · show (absorbFull F ctx.block_size ctx.A inp).2.length < ctx.block_size
    rw [absorbFull_snd_length F ctx.block_size hr ctx.A inp]
    exact Nat.mod_lt _ hr
  · exact absorbFull_fst_aligned F ctx.block_size hr ctx.A inp

/-- Witness for C5: both backends on a six-byte input over block size
four. -/
theorem absorb_backends_witness :
    0 < Samples.ctx5.block_size ∧
    (generic_sha3_absorb Samples.F1 Samples.ctx5 [1, 2, 3, 4, 5, 6]).2
      = 6 % Samples.ctx5.block_size ∧
    (s390x_sha3_absorb Samples.K1 Samples.ctx5 [1, 2, 3, 4, 5, 6]).2
      = 6 % Samples.ctx5.block_size :=
  ⟨by decide,
    (absorb_backends_consume_aligned_part Samples.F1 Samples.K1
      Samples.ctx5 [1, 2, 3, 4, 5, 6] (by decide)).1.1,
    (absorb_backends_consume_aligned_part Samples.F1 Samples.K1
      Samples.ctx5 [1, 2, 3, 4, 5, 6] (by decide)).2.1⟩

/-- Counterexample for C6: after input has been absorbed into the
sample SHAKE context (its `bufsz` is nonzero), `shake_set_ctx_params`
still accepts a valid output-length parameter and updates the digest
size — re-configuration mid-stream is accepted, not rejected as a
usage error. -/
theorem shake_xoflen_reconfig_accepted :
    (keccak_update Samples.F1 Samples.ctx6 [1, 2, 3]).bufsz ≠ 0 ∧
    shake_set_ctx_params
        (some (keccak_update Samples.F1 Samples.ctx6 [1, 2, 3]))
        (some [Samples.pXof42])
      = (true, some { keccak_update Samples.F1 Samples.ctx6 [1, 2, 3]
                        with md_size := 42 }) := by
  constructor
  · simp [keccak_update, keccak_update_tail, SHA3_absorb, absorbFull,
      Samples.ctx6, Samples.F1]
  · have hloc : OSSL_PARAM_locate_const [Samples.pXof42]
        OSSL_DIGEST_PARAM_XOFLEN = some Samples.pXof42 := by decide
    have hget : OSSL_PARAM_get_size_t Samples.pXof42 = some 42 := by
      decide
    simp [shake_set_ctx_params, hloc, hget]

/-- C6 (amended): the requested output length of a SHAKE/KMAC context
may be (re-)configured at any time through `shake_set_ctx_params`,
including after input has been absorbed: whenever the parameter list's
first output-length entry carries a convertible value, the call is
accepted and immediately replaces the digest size, with no check of
the context's absorb state. -/
theorem shake_xoflen_set_anytime (c : KECCAK1600_CTX)
    (ps : List OSSL_PARAM) (p : OSSL_PARAM) (n : Nat)
    (hp : OSSL_PARAM_locate_const ps OSSL_DIGEST_PARAM_XOFLEN = some p)
    (hn : OSSL_PARAM_get_size_t p = some n) :
    shake_set_ctx_params (some c) (some ps)
      = (true, some { c with md_size := n }) := by
  simp [shake_set_ctx_params, hp, hn]

/-- Witness for C6 (amended): setting the output length to 42 on the
sample SHAKE context. -/
theorem shake_xoflen_set_anytime_witness :
    shake_set_ctx_params (some Samples.ctx6) (some [Samples.pXof42])
      = (true, some { Samples.ctx6 with md_size := 42 }) :=
  shake_xoflen_set_anytime Samples.ctx6 [Samples.pXof42] Samples.pXof42
    42 (by decide) (by decide)

/-- C7: parameter lists without the recognized output-length key are
ignored — `shake_set_ctx_params` succeeds leaving the context
unchanged, and `keccak_init_params` behaves exactly as a plain init —
while a present output-length entry with an unconvertible value makes
the call fail with a parameter error, leaving the context (hence its
digest size) unchanged. -/
theorem shake_params_unknown_ignored_malformed_rejected
    (c : KECCAK1600_CTX) (ps : List OSSL_PARAM) :
    ((∀ p ∈ ps, p.key ≠ OSSL_DIGEST_PARAM_XOFLEN) →
      shake_set_ctx_params (some c) (some ps) = (true, some c) ∧
      keccak_init_params true c (some ps)
        = (true, some (ossl_sha3_reset c))) ∧
    (∀ p, OSSL_PARAM_locate_const ps OSSL_DIGEST_PARAM_XOFLEN = some p →
      OSSL_PARAM_get_size_t p = none →
      shake_set_ctx_params (some c) (some ps) = (false, some c) ∧
      keccak_init_params true c (some ps)
        = (false, some (ossl_sha3_reset c))) := by
  constructor
  · intro hnone
    have hloc : OSSL_PARAM_locate_const ps OSSL_DIGEST_PARAM_XOFLEN
        = none := by
      rw [OSSL_PARAM_locate_const, List.find?_eq_none]
      intro x hx
      simpa using hnone x hx
    constructor
    · simp [shake_set_ctx_params, hloc]
    · simp [keccak_init_params, keccak_init, shake_set_ctx_params, hloc]
  · intro p hp hbad
    constructor
    · simp [shake_set_ctx_params, hp, hbad]
    · simp [keccak_init_params, keccak_init, shake_set_ctx_params, hp,
        hbad]

/-- Witness for C7: an unrecognized-key list is ignored on the sample
context; a malformed output-length entry fails leaving it unchanged. -/
theorem shake_params_handling_witness :
    (shake_set_ctx_params (some Samples.ctx7) (some [Samples.pOther])
        = (true, some Samples.ctx7) ∧
     keccak_init_params true Samples.ctx7 (some [Samples.pOther])
        = (true, some (ossl_sha3_reset Samples.ctx7))) ∧
    (shake_set_ctx_params (some Samples.ctx7) (some [Samples.pBad])
        = (false, some Samples.ctx7) ∧
     keccak_init_params true Samples.ctx7 (some [Samples.pBad])
        = (false, some (ossl_sha3_reset Samples.ctx7))) :=
  ⟨(shake_params_unknown_ignored_malformed_rejected Samples.ctx7
      [Samples.pOther]).1 (by decide),
   (shake_params_unknown_ignored_malformed_rejected Samples.ctx7
      [Samples.pBad]).2 Samples.pBad (by decide) (by decide)⟩

end SHA3Prov

namespace MemSec

/-- After wiping the entry at `p` and moving it to the freed side, the
residue found at `p` is all zeros, whatever was stored there and
whatever was freed earlier. -/
theorem find_wipe (p : Nat) (tail : List (Nat × List Nat)) :
    ∀ (l : List (Nat × List Nat)) (bytes : List Nat),
      (l.find? (fun e => e.1 == p)).map (fun e => e.2) = some bytes →
      ((((l.map (fun e =>
            if e.1 == p then (e.1, List.replicate e.2.length 0) else e)).filter
          (fun e => e.1 == p)) ++ tail).find?
            (fun e => e.1 == p)).map (fun e => e.2)
        = some (List.replicate bytes.length 0) := by
  intro l
  induction l with
  | nil => intro bytes h; simp [List.find?] at h
  | cons a rest ih =>
    intro bytes h
    by_cases hp : a.1 = p
    · simp [List.find?_cons, hp] at h
      simp [List.find?_cons, hp, ← h]
    · have hb : ¬ (a.1 == p) = true := by simpa using hp
      rw [@List.find?_cons_of_neg _ (fun e => e.1 == p) a rest hb] at h
      rw [List.map_cons, if_neg hb,
        @List.filter_cons_of_neg _ (fun e => e.1 == p) a _ hb]
      exact ih bytes h

/-- Wipe-then-release leaves an all-zero residue at the released
address. -/
theorem release_cleanse_freedAt (h : Heap) (p : Nat) (bytes : List Nat)
    (hl : h.liveAt p = some bytes) :
    (release (cleanse h p) p).freedAt p
      = some (List.replicate bytes.length 0) := by
  obtain ⟨nx, live, freed⟩ := h
  simp only [Heap.liveAt] at hl
  simp only [release, cleanse, Heap.freedAt]
  exact find_wipe p freed live bytes hl

/-- C8: destroying a digest context (`keccak_freectx`, which
clear-frees the context's block) overwrites the whole block —
permutation state and staging buffer included — with zeros before
releasing it, so only zeros remain as the residue of the freed region;
likewise the secure allocator's clear-free entry point wipes the given
region before freeing it. -/
theorem destroy_wipes_sensitive_memory (h : Heap) (p : Nat)
    (bytes : List Nat) (ctxSize num : Nat) (f : String) (ln : Nat)
    (hl : h.liveAt p = some bytes) :
    (SHA3Prov.keccak_freectx h p ctxSize).freedAt p
      = some (List.replicate bytes.length 0) ∧
    (CRYPTO_secure_clear_free h p num f ln).freedAt p
      = some (List.replicate bytes.length 0) :=
  ⟨release_cleanse_freedAt h p bytes hl,
   release_cleanse_freedAt h p bytes hl⟩

/-- Witness for C8: freeing the sample heap's three-byte block at
address 0 leaves a residue of three zeros. -/
theorem destroy_wipes_witness :
    Samples.heap8.liveAt 0 = some [5, 6, 7] ∧
    (SHA3Prov.keccak_freectx Samples.heap8 0 3).freedAt 0
      = some (List.replicate 3 0) ∧
    (CRYPTO_secure_clear_free Samples.heap8 0 3 "x" 1).freedAt 0
      = some (List.replicate 3 0) :=
  ⟨by decide,
   (destroy_wipes_sensitive_memory Samples.heap8 0 [5, 6, 7] 3 3 "x" 1
      (by decide)).1,
   (destroy_wipes_sensitive_memory Samples.heap8 0 [5, 6, 7] 3 3 "x" 1
      (by decide)).2⟩

/-- C10: `CRYPTO_secure_malloc` and `CRYPTO_secure_zalloc` compute the
identical result — both delegate to the same zeroed hardened
allocation, so even the non-z variant returns zeroed memory — and
`CRYPTO_secure_clear_free` behaves identically to `CRYPTO_secure_free`
(the length argument is ignored and the wrapper performs no wiping
step of its own). -/
theorem secure_wrapper_equivalences (h : Heap) (num ptr : Nat)
    (f1 f2 : String) (l1 l2 : Nat) :
    CRYPTO_secure_malloc h num f1 l1 = CRYPTO_secure_zalloc h num f2 l2 ∧
    CRYPTO_secure_clear_free h ptr num f1 l1
      = CRYPTO_secure_free h ptr f2 l2 ∧
    ((CRYPTO_secure_malloc h num f1 l1).1).liveAt
        (CRYPTO_secure_malloc h num f1 l1).2
      = some (List.replicate num 0) := by
  refine ⟨rfl, rfl, ?_⟩
  simp [CRYPTO_secure_malloc, zhard_alloc, Heap.liveAt, List.find?_cons]

end MemSec

namespace ECXExch

/-- C9: `ecx_init` and `ecx_set_peer` fail immediately (returning 0)
and leave the context — including its stored key and peer key —
unchanged whenever the candidate key's length differs from the
context's configured key length; they succeed only when the lengths
match and the key's reference count can be taken. -/
theorem ecx_keylen_mismatch_rejected (running : Bool)
    (upRefOk : ECX_KEY → Bool) (c : PROV_ECX_CTX) (k : ECX_KEY) :
    (k.keylen ≠ c.keylen →
      ecx_init running upRefOk (some c) (some k) = (false, some c) ∧
      ecx_set_peer running upRefOk (some c) (some k) = (false, some c)) ∧
    (∀ r, ecx_init running upRefOk (some c) (some k) = (true, r) →
      k.keylen = c.keylen ∧ upRefOk k = true) ∧
    (∀ r, ecx_set_peer running upRefOk (some c) (some k) = (true, r) →
      k.keylen = c.keylen ∧ upRefOk k = true) := by
  refine ⟨?_, ?_, ?_⟩
  · intro hne
    cases running <;> simp [ecx_init, ecx_set_peer, hne]
  · intro r hr
    cases running with
    | false => simp [ecx_init] at hr
    | true =>
      by_cases hk : k.keylen = c.keylen
      · cases hu : upRefOk k with
        | false => simp [ecx_init, hk, hu] at hr
        | true => exact ⟨hk, rfl⟩
      · simp [ecx_init, hk] at hr
  · intro r hr
    cases running with
    | false => simp [ecx_set_peer] at hr
    | true =>
      by_cases hk : k.keylen = c.keylen
      · cases hu : upRefOk k with
        | false => simp [ecx_set_peer, hk, hu] at hr
        | true => exact ⟨hk, rfl⟩
      · simp [ecx_set_peer, hk] at hr

/-- Witness for C9: a 56-byte key against a 32-byte context is
rejected with the context unchanged; a 32-byte key with an available
reference succeeds. -/
theorem ecx_keylen_mismatch_witness :
    (ecx_init true (fun _ => true) (some Samples.ectx9)
        (some Samples.key9) = (false, some Samples.ectx9) ∧
     ecx_set_peer true (fun _ => true) (some Samples.ectx9)
        (some Samples.key9) = (false, some Samples.ectx9)) ∧
    (Samples.key9m.keylen = Samples.ectx9.keylen ∧
     (fun _ => true) Samples.key9m = true) :=
  ⟨(ecx_keylen_mismatch_rejected true (fun _ => true) Samples.ectx9
      Samples.key9).1 (by decide),
   (ecx_keylen_mismatch_rejected true (fun _ => true) Samples.ectx9
      Samples.key9m).2.1
      (some { Samples.ectx9 with key := some Samples.key9m })
      (by decide)⟩

end ECXExch
